import Mathlib

/-!
Verification development for the `llm-functions-ts` core
(`packages/llm-functions-ts/src/llm.ts`): the builder's Definition model,
the structured-output retry loop (`callZodOutput`), the execution/trace
recorder, and the log-merging registry. TypeScript values are shallowly
embedded: JSON values are an inductive, zod schemas are modeled by their
`safeParse` function, asynchronous external collaborators (the chat
provider, `JSON.parse`, document splitting, template interpolation) are
oracle fields of a context record, and the unbounded recursion of
`callZodOutput` is indexed by fuel (`none` = no answer after `fuel`
provider round-trips).
-/

namespace LlmFn

/-- JSON values, as produced by `JSON.parse` and consumed by zod parsers. -/
inductive Json where
  | null
  | bool (b : Bool)
  | num (n : Int)
  | str (s : String)
  | arr (elems : List Json)
  | obj (fields : List (String × Json))

def Json.lookupField : List (String × Json) → String → Option Json
  | [], _ => none
  | (k, v) :: rest, key => if k = key then some v else Json.lookupField rest key

/-- Untyped member access `(x as any).argument`: JS yields `undefined` on
non-objects and missing keys; both are collapsed to `null` here. -/
def Json.getField : Json → String → Json
  | .obj fields, key => (Json.lookupField fields key).getD .null
  | _, _ => .null

/-- A zod schema, modeled by its `safeParse`: parsed (possibly transformed)
data on success, the zod error message on failure. -/
abbrev Schema := Json → Except String Json

/-- `FunctionDef` (sub-function catalog entry): name, description, parameter
schema and the optional `implements` callback (returns a string). -/
structure FunctionDef where
  name : String
  description : String
  parameters : Schema
  implements : Option (Json → String)

/-- A document descriptor without its live `input` binding
(`DocumentWithoutInput`); document internals are an external collaborator,
so only an opaque descriptor is kept. -/
structure DocumentDesc where
  descr : String
deriving DecidableEq

/-- Runtime invocation arguments (`FunctionArgs`): optional query input,
optional instruction placeholder values, optional per-document inputs. -/
structure FunctionArgs where
  query : Option Json := none
  instructions : Option (List (String × String)) := none
  documents : Option (List String) := none

/-- `query` field of a Definition: `{ queryInput: boolean, fn }`. -/
structure QueryDef where
  queryInput : Bool
  fn : Json → Json

/-- Subset of the `ChatOpenAI` constructor params that `createFn` defaults. -/
structure ModelParams where
  modelName : String
  temperature : Rat
  maxTokens : Int

/-- Partial model params, as accepted by `withModelParams`. -/
structure ModelParamsPatch where
  modelName : Option String := none
  temperature : Option Rat := none
  maxTokens : Option Int := none

/-- A plain (non-AI-function) `map` entry. The source passes
`(finalResponse, execution, runtimeArgs)`; the `execution` argument is not
modeled (it would make the definition type non-positively recursive and no
verified property inspects it). -/
abbrev MapTransform := Option (Json ⊕ String) → FunctionArgs → Json

/-- `ProcedureBuilderDef`: the immutable Definition record. An `Option`
field models presence/absence of the corresponding JS object key.
`mapFns` entries are either plain transforms or nested AI-function
definitions (`AiFunction.__internal_def`); `sequences` holds nested
definitions. The `verify` callback consumes an `Execution` (which itself
contains a `ProcedureBuilderDef`), a non-positive occurrence, so only its
presence is modeled; no verified property invokes it. -/
inductive ProcedureBuilderDef where
  | mk
    (id : Option String)
    (name : Option String)
    (description : Option String)
    (output : Option Schema)
    (tsOutputString : Option String)
    (model : Option ModelParams)
    (documents : Option (List DocumentDesc))
    (functions : Option (List FunctionDef))
    (query : Option QueryDef)
    (instructions : Option String)
    (dataset : Option (List FunctionArgs))
    (mapFns : Option (List (MapTransform ⊕ ProcedureBuilderDef)))
    (verify : Option Unit)
    (sequences : Option (List ProcedureBuilderDef))

namespace ProcedureBuilderDef

def id : ProcedureBuilderDef → Option String
  | .mk i _ _ _ _ _ _ _ _ _ _ _ _ _ => i

def name : ProcedureBuilderDef → Option String
  | .mk _ n _ _ _ _ _ _ _ _ _ _ _ _ => n

def description : ProcedureBuilderDef → Option String
  | .mk _ _ de _ _ _ _ _ _ _ _ _ _ _ => de

def output : ProcedureBuilderDef → Option Schema
  | .mk _ _ _ o _ _ _ _ _ _ _ _ _ _ => o

def tsOutputString : ProcedureBuilderDef → Option String
  | .mk _ _ _ _ t _ _ _ _ _ _ _ _ _ => t

def model : ProcedureBuilderDef → Option ModelParams
  | .mk _ _ _ _ _ m _ _ _ _ _ _ _ _ => m

def documents : ProcedureBuilderDef → Option (List DocumentDesc)
  | .mk _ _ _ _ _ _ dc _ _ _ _ _ _ _ => dc

def functions : ProcedureBuilderDef → Option (List FunctionDef)
  | .mk _ _ _ _ _ _ _ f _ _ _ _ _ _ => f

def query : ProcedureBuilderDef → Option QueryDef
  | .mk _ _ _ _ _ _ _ _ q _ _ _ _ _ => q

def instructions : ProcedureBuilderDef → Option String
  | .mk _ _ _ _ _ _ _ _ _ ins _ _ _ _ => ins

def dataset : ProcedureBuilderDef → Option (List FunctionArgs)
  | .mk _ _ _ _ _ _ _ _ _ _ ds _ _ _ => ds

def mapFns : ProcedureBuilderDef → Option (List (MapTransform ⊕ ProcedureBuilderDef))
  | .mk _ _ _ _ _ _ _ _ _ _ _ mp _ _ => mp

def verify : ProcedureBuilderDef → Option Unit
  | .mk _ _ _ _ _ _ _ _ _ _ _ _ v _ => v

def sequences : ProcedureBuilderDef → Option (List ProcedureBuilderDef)
  | .mk _ _ _ _ _ _ _ _ _ _ _ _ _ sq => sq

/-- The empty definition (`createFn()` with no `initDef`, before model
defaulting). -/
def empty : ProcedureBuilderDef :=
  .mk none none none none none none none none none none none none none none

end ProcedureBuilderDef

/-- Default model parameters installed by `createFn`. -/
def defaultModel : ModelParams :=
  { modelName := "gpt-3.5-turbo-16k", temperature := (7 : Rat) / 10, maxTokens := -1 }

/-- `const def = { model: {...defaults}, ...initDef }` at `createFn` entry:
`initDef`'s own `model` key, when present, overrides the default. -/
def withDefaultModel : ProcedureBuilderDef → ProcedureBuilderDef
  | .mk i n de o t m dc f q ins ds mp v sq =>
    .mk i n de o t (some (m.getD defaultModel)) dc f q ins ds mp v sq

/-- `{...def.model, ...model}` inside `withModelParams`. -/
def mergeModelParams (old : ModelParams) (p : ModelParamsPatch) : ModelParams :=
  { modelName := p.modelName.getD old.modelName,
    temperature := p.temperature.getD old.temperature,
    maxTokens := p.maxTokens.getD old.maxTokens }

/-! ## Builder methods

Each returned-object method of `createFn` (lines 668–804) produces the next
Definition by JS object spread. All methods except `output` spread the old
definition *first* (`{...def, field}`), so the new field wins; `output`
spreads it *last* (`{output, tsOutputString, ...def}`), so an existing
`output`/`tsOutputString` key of the old definition wins. The
`tsOutputString` argument models the externally derived
`printNode(zodToTs(t).node)`. -/

namespace Builder

def name (d : ProcedureBuilderDef) (s : String) : ProcedureBuilderDef :=
  match d with
  | .mk i _ de o t m dc f q ins ds mp v sq => .mk i (some s) de o t m dc f q ins ds mp v sq

def description (d : ProcedureBuilderDef) (s : String) : ProcedureBuilderDef :=
  match d with
  | .mk i n _ o t m dc f q ins ds mp v sq => .mk i n (some s) o t m dc f q ins ds mp v sq

def functions (d : ProcedureBuilderDef) (fs : List FunctionDef) : ProcedureBuilderDef :=
  match d with
  | .mk i n de o t m dc f q ins ds mp v sq =>
    .mk i n de o t m dc (some (f.getD [] ++ fs)) q ins ds mp v sq

def dataset (d : ProcedureBuilderDef) (data : List FunctionArgs) : ProcedureBuilderDef :=
  match d with
  | .mk i n de o t m dc f q ins _ mp v sq => .mk i n de o t m dc f q ins (some data) mp v sq

def instructions (d : ProcedureBuilderDef) (template : String) : ProcedureBuilderDef :=
  match d with
  | .mk i n de o t m dc f q _ ds mp v sq => .mk i n de o t m dc f q (some template) ds mp v sq

def withModelParams (d : ProcedureBuilderDef) (p : ModelParamsPatch) : ProcedureBuilderDef :=
  match d with
  | .mk i n de o t m dc f q ins ds mp v sq =>
    .mk i n de o t (some (mergeModelParams (m.getD defaultModel) p)) dc f q ins ds mp v sq

/-- `output`: `createFn({ output: t, tsOutputString, ...def })` — note the
old definition is spread LAST, so previously present `output` /
`tsOutputString` keys override the newly supplied ones. -/
def output (d : ProcedureBuilderDef) (t : Schema) (tsOutputString : String) :
    ProcedureBuilderDef :=
  match d with
  | .mk i n de o ts m dc f q ins ds mp v sq =>
    .mk i n de (some (o.getD t)) (some (ts.getD tsOutputString)) m dc f q ins ds mp v sq

def map (d : ProcedureBuilderDef) (fn : MapTransform ⊕ ProcedureBuilderDef) :
    ProcedureBuilderDef :=
  match d with
  | .mk i n de o t m dc f q ins ds mp v sq =>
    .mk i n de o t m dc f q ins ds (some (mp.getD [] ++ [fn])) v sq

def sequence (d : ProcedureBuilderDef) (aiFnDef : ProcedureBuilderDef) : ProcedureBuilderDef :=
  match d with
  | .mk i n de o t m dc f q ins ds mp v sq =>
    .mk i n de o t m dc f q ins ds mp v (some (sq.getD [] ++ [aiFnDef]))

def document (d : ProcedureBuilderDef) (doc : DocumentDesc) : ProcedureBuilderDef :=
  match d with
  | .mk i n de o t m dc f q ins ds mp v sq =>
    .mk i n de o t m (some (dc.getD [] ++ [doc])) f q ins ds mp v sq

def query (d : ProcedureBuilderDef) (qfn : Json → Json) : ProcedureBuilderDef :=
  match d with
  | .mk i n de o t m dc f _ ins ds mp v sq =>
    .mk i n de o t m dc f (some { queryInput := true, fn := qfn }) ins ds mp v sq

def verify (d : ProcedureBuilderDef) : ProcedureBuilderDef :=
  match d with
  | .mk i n de o t m dc f q ins ds mp _ sq =>
    .mk i n de o t m dc f q ins ds mp (some ()) sq

end Builder

/-! ## Execution and trace model -/

structure FunctionCallRaw where
  name : String
  arguments : String
deriving DecidableEq

/-- Chat messages (`BaseMessage`): system / human / AI (with an optional
`additional_kwargs.function_call`) / function result messages. -/
inductive Msg where
  | system (content : String)
  | human (content : String)
  | ai (content : String) (functionCall : Option FunctionCallRaw)
  | function (content : String) (name : String)
deriving DecidableEq

/-- Success payloads of an Action's response. -/
inductive SuccessOutput where
  | responseData (d : Json)
  | functionCallData (d : Json)
  | plain (s : Option String)

/-- `output` payload of a `zod-error` response: either the parsed
`arguments` (schema-validation failure) or the raw `function_call`
(envelope parse failure). -/
inductive ZodErrorOutput where
  | parsed (j : Json)
  | raw (name arguments : String)

inductive ActionResponse where
  | loading
  | success (output : SuccessOutput)
  | error (error : String)
  | zodError (output : ZodErrorOutput) (error : String)
  | timeoutError

inductive ActionData where
  | executingFunction (functionDef : ProcedureBuilderDef) (input : FunctionArgs)
  | query (input : Option Json) (response : ActionResponse)
  | getDocument (input : DocumentDesc) (response : ActionResponse)
  | callingFunction (name description : String) (parameters : Json) (response : ActionResponse)
  | callingOpenAi (messages : List Msg) (response : ActionResponse)
  | log (response : ActionResponse)

/-- An Action record: unique id plus the tagged payload. -/
structure Action where
  id : String
  data : ActionData

/-- `updateTrace(id, { response })`: every call site patches only the
`response` field, so a patch is an `ActionResponse`. `executing-function`
Actions carry no response field and are returned unchanged. -/
def ActionData.setResponse : ActionData → ActionResponse → ActionData
  | .executingFunction d i, _ => .executingFunction d i
  | .query i _, r => .query i r
  | .getDocument i _, r => .getDocument i r
  | .callingFunction n de p _, r => .callingFunction n de p r
  | .callingOpenAi m _, r => .callingOpenAi m r
  | .log _, r => .log r

/-- One entry of `Execution.functionsExecuted`. -/
structure FunctionExecuted where
  functionExecutionId : String
  inputs : FunctionArgs
  trace : List Action
  finalResponse : Option (Json ⊕ String)
  functionDef : ProcedureBuilderDef

/-- The Execution record. `createdAt` is an abstract timestamp;
`finalResponse` holds either the schema-parsed value (`inl`) or the
degenerate error-message result of a timeout (`inr`); `none` models an
absent/undefined final response. -/
structure Execution where
  id : String
  createdAt : Nat
  functionsExecuted : List FunctionExecuted
  finalResponse : Option (Json ⊕ String)
  verified : Option Bool

/-- Body of `createTrace` after id generation: append the Action to every
sub-record matching the active `functionExecutionId`. -/
def Execution.appendAction (ex : Execution) (feid : String) (a : Action) : Execution :=
  { ex with
    functionsExecuted := ex.functionsExecuted.map fun e =>
      if e.functionExecutionId == feid then { e with trace := e.trace ++ [a] } else e }

/-- Body of `updateTrace` after the no-execution guard: shallow-merge the
patch into the Action with the given id inside matching sub-records. -/
def Execution.patchAction (ex : Execution) (feid id : String) (r : ActionResponse) : Execution :=
  { ex with
    functionsExecuted := ex.functionsExecuted.map fun e =>
      if e.functionExecutionId == feid then
        { e with trace := e.trace.map fun t =>
            if t.id == id then { t with data := t.data.setResponse r } else t }
      else e }

/-- `updateTrace` (lines 548–568): throws when no Execution is active,
otherwise patches the Action and notifies the observer with the updated
Execution. The second component of the result is the list of observer
notifications emitted. The active `functionExecutionId`, a closure
variable in the source, is passed explicitly. -/
def updateTrace (execution : Option Execution) (functionExecutionId id : String)
    (r : ActionResponse) : Except String (Execution × List Execution) :=
  match execution with
  | none => .error "Execution not found"
  | some ex =>
    let ex' := ex.patchAction functionExecutionId id r
    .ok (ex', [ex'])

/-- `resolveExecution` body: set the final response on matching sub-records
(appending any extra trace, always `[]` at the source's call sites) and on
the Execution itself. -/
def resolveExecution (ex : Execution) (feid : String)
    (finalResponse : Option (Json ⊕ String)) (trace : List Action) : Execution :=
  { ex with
    functionsExecuted := ex.functionsExecuted.map fun e =>
      if e.functionExecutionId == feid then
        { e with trace := e.trace ++ trace, finalResponse := finalResponse }
      else e,
    finalResponse := finalResponse }

/-! ## Log Registry -/

/-- Modelled from the spec: `mergeOrUpdate` is imported from `./utils`, a
file absent from the sources. Per §4.5: entries present in the incoming
list overwrite the matching existing entry (matched on the key), entries
present only in the existing list are preserved, order follows the
existing list with unmatched incoming entries appended. -/
def mergeOrUpdate {α : Type} (old incoming : List α) (key : α → String) : List α :=
  (old.map fun o => ((incoming.find? fun n => key n == key o).getD o)) ++
    (incoming.filter fun n => !(old.any fun o => key o == key n))

/-- The merge branch of `logHandler` (lines 864–871):
`{...existingLog, ...l, functionsExecuted: mergeOrUpdate(...)}`. The key
`o.functionExecutionId || ''` is the identity on strings (`''` is the only
falsy string). An `Option` field of `l` being `none` models the key being
absent, hence not overwriting. -/
def mergeExecutions (existingLog l : Execution) : Execution :=
  { id := l.id,
    createdAt := l.createdAt,
    functionsExecuted :=
      mergeOrUpdate existingLog.functionsExecuted l.functionsExecuted
        (fun o => o.functionExecutionId),
    finalResponse := l.finalResponse <|> existingLog.finalResponse,
    verified := l.verified <|> existingLog.verified }

/-- `logHandler` (lines 856–880) acting on the in-memory `executionLogs`
list: append when the incoming id is new, otherwise merge into every entry
sharing the id. Returns the updated list and the stored Execution.
Persistence (`logsProvider.saveLog`) is an external side effect. -/
def logHandler (executionLogs : List Execution) (l : Execution) :
    List Execution × Execution :=
  match executionLogs.find? (fun e => e.id == l.id) with
  | none => (executionLogs ++ [l], l)
  | some existingLog =>
    let mergedLogs := mergeExecutions existingLog l
    (executionLogs.map fun e => if e.id == mergedLogs.id then mergedLogs else e, mergedLogs)

/-! ## Content-addressed identity (`create`, lines 744–755)

`create` hashes `JSON.stringify(def)`. Serialization-order semantics of JS
objects matter here, so a definition is modeled at this level as an ordered
association list of keys to already-serialized JSON value strings
(insertion order = JS enumeration order). -/

/-- A JS object with pre-serialized values, in key insertion order. -/
abbrev Js := List (String × String)

def obrace : String := "\x7b"
def cbrace : String := "\x7d"

/-- `JSON.stringify` of such an object. -/
def stringifyObj (d : Js) : String :=
  obrace ++ String.intercalate "," (d.map fun kv => "\"" ++ kv.1 ++ "\":" ++ kv.2) ++ cbrace

/-- `{ ...d, k: v }`: if `k` is already a key it keeps its position and is
overwritten, otherwise it is appended last. -/
def setKey (d : Js) (k v : String) : Js :=
  if d.any (fun kv => kv.1 == k) then d.map (fun kv => if kv.1 == k then (k, v) else kv)
  else d ++ [(k, v)]

def getKey (d : Js) (k : String) : Option String :=
  (d.find? (fun kv => kv.1 == k)).map (fun kv => kv.2)

/-- JS `Math.imul` on unsigned 32-bit representatives. -/
def imul32 (a b : Nat) : Nat := (a * b) % 4294967296

/-- Modelled from the spec: `cyrb53` is imported from `./cyrb53`, a file
absent from the sources; §9 requires a deterministic fast
non-cryptographic hash of the serialized definition. This is the standard
public cyrb53 string hash that the import name denotes, with JS 32-bit
integer arithmetic modeled on unsigned representatives (`xor`, `Math.imul`
mod 2^32, `>>>` as division) and `charCodeAt` as the character code point
(the serialized definitions at issue are ASCII). -/
def cyrb53 (str : String) (seed : Nat := 0) : Nat :=
  let h1 := Nat.xor 0xdeadbeef seed
  let h2 := Nat.xor 0x41c6ce57 seed
  let hs := str.toList.foldl
    (fun (h : Nat × Nat) c =>
      (imul32 (Nat.xor h.1 c.toNat) 2654435761, imul32 (Nat.xor h.2 c.toNat) 1597334677))
    (h1, h2)
  let a1 := imul32 (Nat.xor hs.1 (hs.1 / 65536)) 2246822507
  let a2 := Nat.xor a1 (imul32 (Nat.xor hs.2 (hs.2 / 8192)) 3266489909)
  let b1 := imul32 (Nat.xor hs.2 (hs.2 / 65536)) 2246822507
  let b2 := Nat.xor b1 (imul32 (Nat.xor a2 (a2 / 8192)) 3266489909)
  4294967296 * (Nat.land 2097151 b2) + a2

/-- `create` (lines 744–746): `sha = cyrb53(JSON.stringify(def))`;
`defWithId = { ...def, id: sha.toString() }`. The definition serialized is
the builder's current `def` as it stands, id key included when present. -/
def create (def' : Js) : Js :=
  let sha := cyrb53 (stringifyObj def')
  setKey def' "id" ("\"" ++ toString sha ++ "\"")

/-! ## Structured Output Retriever (`callZodOutput`, lines 320–483) -/

/-- One chat-provider reply: text plus the optional
`additional_kwargs.function_call`. -/
structure ChatReply where
  text : String
  functionCall : Option FunctionCallRaw

/-- External collaborators, per §1/§6 out-of-scope interfaces: the chat
provider, `JSON.parse` (inside `stringToJSONSchema`), template
interpolation and instruction-record rendering, document splitting, query
result serialization, the rendered print-schema text used in corrective
messages (`JSON.stringify(zodToJsonSchema(...))`), and the
`{...p.finalResponse}` argument coercion of AI-function map steps. -/
structure Ctx where
  provider : List Msg → ChatReply
  jsonParse : String → Except String Json
  interpolate : String → List (String × String) → String
  showRecord : List (String × String) → String
  splitDoc : DocumentDesc → Option String → String → String → String
  stringifyJson : Json → String
  printSchemaText : String
  spreadArgs : Option (Json ⊕ String) → FunctionArgs

/-- Mutable engine state closed over by `createFn`: the active Execution,
the `nanoid` generator (a counter here), and the number of chat-provider
calls made (for stating "zero model calls" properties). -/
structure EngineSt where
  ex : Execution
  nextId : Nat
  calls : Nat

def freshId (n : Nat) : String := "n" ++ toString n

/-- `createTrace`: generate an id, append the Action to the active
sub-record, return the id. -/
def createTrace (st : EngineSt) (feid : String) (a : ActionData) : String × EngineSt :=
  let id := freshId st.nextId
  (id, { st with nextId := st.nextId + 1, ex := st.ex.appendAction feid ⟨id, a⟩ })

/-- `updateTrace` as used from inside the engine, where an Execution is
always active. -/
def updateTraceSt (st : EngineSt) (feid id : String) (r : ActionResponse) : EngineSt :=
  { st with ex := st.ex.patchAction feid id r }

/-- The synthesized `print` pseudo-function (lines 330–336). -/
def printFn (zodSchema : Schema) : FunctionDef :=
  { name := "print",
    description := "Answer the user prompt using this function. This is the function you call once you have your final answer",
    parameters := zodSchema,
    implements := some fun _ => "Return" }

/-- `createValidationErrorFunctionMessage` (lines 933–938). -/
def createValidationErrorFunctionMessage (error : String) : Msg :=
  .function ("function \x27print\x27 returned a Validation error\n\x27" ++ error ++
    "\n Try again with a valid response. You may be forgetting to add key called \x27argument\x27")
    "print"

/-- Corrective human message of the no-function-call branch (lines 362–364). -/
def noFunctionCallMsg (schemaText : String) : Msg :=
  .human ("Please use the print function to respond. print function has the following scheme:\n"
    ++ schemaText ++ "         \n")

/-- Result of `callZodOutput`: the schema-parsed `print` value, the
degenerate error-message result of the `timeout-error` branches, or a
thrown error (unknown function name). -/
inductive CZOutcome where
  | value (j : Json)
  | errText (e : String)
  | thrown (e : String)

/-- `callZodOutput` (lines 320–483), fuel-indexed: each recursive call in
the source consumes one unit; `none` means no answer within `fuel`
provider round-trips. `schemaText` is the rendered
`zodToJsonSchema(zodSchema)`. The per-reply control flow mirrors the
source: record a loading `calling-open-ai` Action; call the provider; on a
missing function call, mark `error` and recurse with `retries + 1`; parse
the function-call envelope (`functionCallSchema`: `arguments` through
`JSON.parse`), on failure mark `zod-error` and either time out
(`retries > 3`) or recurse with `retries + 1`; resolve the named function
from user functions plus `print` (throwing when absent); validate the
arguments against its parameter schema, on failure same zod-error /
timeout / retry handling; on success either terminate through `print`
(exposing the `argument` field) or run the sub-function and recurse with
the SAME `retries`. -/
def callZodOutput (ctx : Ctx) (d : ProcedureBuilderDef) (schemaText : String)
    (feid : String) (zodSchema : Schema) :
    Nat → EngineSt → List Msg → Nat → Option (CZOutcome × List Msg × EngineSt)
  | 0, _, _, _ => none
  | fuel + 1, st, messages, retries =>
    let c := createTrace st feid (.callingOpenAi messages .loading)
    let id := c.1
    let userFunctions := (ProcedureBuilderDef.functions d).getD []
    let functions := userFunctions ++ [printFn zodSchema]
    let reply := ctx.provider messages
    let st := { c.2 with calls := c.2.calls + 1 }
    let messages := messages ++ [Msg.ai reply.text reply.functionCall]
    match reply.functionCall with
    | none =>
      let st := updateTraceSt st feid id
        (.error ("No function call found, Got text instead: " ++ reply.text))
      callZodOutput ctx d schemaText feid zodSchema fuel st
        (messages ++ [noFunctionCallMsg schemaText]) (retries + 1)
    | some fc =>
      match ctx.jsonParse fc.arguments with
      | .error perr =>
        let st := updateTraceSt st feid id (.zodError (.raw fc.name fc.arguments) perr)
        if retries > 3 then
          let st := updateTraceSt st feid id .timeoutError
          some (.errText perr, messages, st)
        else
          callZodOutput ctx d schemaText feid zodSchema fuel st
            (messages ++ [createValidationErrorFunctionMessage perr]) (retries + 1)
      | .ok args =>
        match functions.find? (fun f => f.name == fc.name) with
        | none => some (.thrown ("Function " ++ fc.name ++ " not found"), messages, st)
        | some fn =>
          match fn.parameters args with
          | .ok data =>
            if fn.name == "print" then
              let response := data.getField "argument"
              let st := updateTraceSt st feid id (.success (.responseData response))
              some (.value response, messages ++ [Msg.function "Success" "print"], st)
            else
              let st := updateTraceSt st feid id (.success (.functionCallData data))
              let c2 := createTrace st feid
                (.callingFunction fn.name fn.description data .loading)
              let fnResponse := fn.implements.map fun impl => impl data
              let st := updateTraceSt c2.2 feid c2.1 (.success (.plain fnResponse))
              let content := match fnResponse with
                | some s => if s == "" then "No response" else s
                | none => "No response"
              callZodOutput ctx d schemaText feid zodSchema fuel st
                (messages ++ [Msg.function content fn.name]) retries
          | .error zerr =>
            let st := updateTraceSt st feid id (.zodError (.parsed args) zerr)
            if retries > 3 then
              let st := updateTraceSt st feid id .timeoutError
              some (.errText zerr, messages, st)
            else
              callZodOutput ctx d schemaText feid zodSchema fuel st
                (messages ++ [createValidationErrorFunctionMessage zerr]) (retries + 1)

/-! ## Execution Engine (`run`, lines 570–667; outer `run` 772–803;
`runDataset` 756–762) -/

/-- `z.string()` as the target schema when no output schema is declared.
(zod's exact message text is abstracted to a fixed string.) -/
def stringSchema : Schema := fun j =>
  match j with
  | .str s => .ok (.str s)
  | _ => .error "Expected string, received something else"

/-- `z.object({ argument: z.union([def.output, z.object({ error:
z.string() })]) })` (lines 643–647): an object with an `argument` field
that either satisfies the declared output schema or is an
`{ error: string }` object; unknown keys are stripped as zod does. (zod's
exact union error text is abstracted: the first branch's message is
reported.) -/
def wrapOutputSchema (output : Schema) : Schema := fun j =>
  match j with
  | .obj fields =>
    match Json.lookupField fields "argument" with
    | none => .error "Required"
    | some a =>
      match output a with
      | .ok v => .ok (.obj [("argument", v)])
      | .error e1 =>
        match a with
        | .obj afields =>
          match Json.lookupField afields "error" with
          | some (.str s) => .ok (.obj [("argument", .obj [("error", .str s)])])
          | _ => .error e1
        | _ => .error e1
  | _ => .error "Expected object, received something else"

/-- The `documentsTemplate` loop (lines 624–639): per declared document,
record a `get-document` Action (loading → success), call the external
splitter, and collect a `DOCUMENT:...` block. -/
def documentsTemplate (ctx : Ctx) (feid exId userPrompt : String) :
    List (DocumentDesc × Option String) → List String → EngineSt → List String × EngineSt
  | [], acc, st => (acc, st)
  | (dsc, inp) :: rest, acc, st =>
    let c := createTrace st feid (.getDocument dsc .loading)
    let res := ctx.splitDoc dsc inp exId userPrompt
    let st := updateTraceSt c.2 feid c.1 (.success (.plain (some res)))
    documentsTemplate ctx feid exId userPrompt rest
      (acc ++ ["DOCUMENT:\"\"\"\n            " ++ res ++ "\n            \"\"\""]) st

/-- Result of an invocation: the resolved Execution, or a thrown error
propagated out of `callZodOutput`. -/
inductive RunOut where
  | ok (ex : Execution)
  | thrown (e : String)

/-- The inner `run` (lines 570–667). `n0` seeds the nanoid counter; the
result carries the final counter and the number of chat-provider calls.
Steps, in source order: create the Execution (fresh id unless one is
supplied) with a single sub-record; record `executing-function`; resolve
the optional query under a `query` Action; pair declared documents with
supplied inputs and build document blocks under `get-document` Actions;
interpolate instructions; if neither output schema nor instructions are
declared, short-circuit by resolving with an undefined final response;
otherwise build the target schema, assemble system + non-empty user
messages, delegate to `callZodOutput`, and resolve with its result. -/
def run (ctx : Ctx) (d : ProcedureBuilderDef) (fuel : Nat) (arg : FunctionArgs)
    (executionId : Option String) (n0 : Nat) : Option (RunOut × Nat × Nat) :=
  let p := match executionId with
    | some e => (e, n0)
    | none => (freshId n0, n0 + 1)
  let exId := p.1
  let feid := freshId p.2
  let ex0 : Execution :=
    { id := exId, createdAt := 0,
      functionsExecuted := [({ functionExecutionId := feid, inputs := arg, trace := [],
                               finalResponse := none, functionDef := d } : FunctionExecuted)],
      finalResponse := none, verified := none }
  let st0 : EngineSt := { ex := ex0, nextId := p.2 + 1, calls := 0 }
  let st1 := (createTrace st0 feid (.executingFunction d arg)).2
  let q := match arg.query, ProcedureBuilderDef.query d with
    | some qa, some qd =>
      let c := createTrace st1 feid (.query (some qa) .loading)
      let queryDoc := ctx.stringifyJson (qd.fn qa)
      (some queryDoc, updateTraceSt c.2 feid c.1 (.success (.plain (some queryDoc))))
    | _, _ => ((none : Option String), st1)
  let documents := ((ProcedureBuilderDef.documents d).getD []).enum.map
    (fun ie => (ie.2, (arg.documents.getD [])[ie.1]?))
  let queryTemplate := match arg.query, ProcedureBuilderDef.query d with
    | some _, some _ => "DOCUMENT:\"\"\"\n    " ++ q.1.getD "" ++ "\n  \"\"\"\n"
    | _, _ => ""
  let userPrompt := match ProcedureBuilderDef.instructions d with
    | some tpl => ctx.interpolate tpl (arg.instructions.getD [])
    | none => match arg.instructions with
      | some m => ctx.showRecord m
      | none => ""
  let dt := documentsTemplate ctx feid exId userPrompt documents [] q.2
  if (ProcedureBuilderDef.output d).isNone && (ProcedureBuilderDef.instructions d).isNone then
    some (.ok (resolveExecution dt.2.ex feid none []), dt.2.nextId, dt.2.calls)
  else
    let zodSchema : Schema := match ProcedureBuilderDef.output d with
      | some s => wrapOutputSchema s
      | none => stringSchema
    let systemPrompt := Msg.system
      "Use the DOCUMENT to answer user prompts.\nOnce you have the answer, use the print function. Always call one of the provided functions"
    let userMessages :=
      (if queryTemplate == "" then [] else [Msg.human queryTemplate]) ++
      (if dt.1.length > 0 then [Msg.human (String.intercalate "\n" dt.1)] else []) ++
      (if userPrompt == "" then [] else [Msg.human userPrompt])
    let chatMessages := [systemPrompt] ++ userMessages
    match callZodOutput ctx d ctx.printSchemaText feid zodSchema fuel dt.2 chatMessages 0 with
    | none => none
    | some (.thrown e, _, st) => some (.thrown e, st.nextId, st.calls)
    | some (.value j, _, st) =>
      some (.ok (resolveExecution st.ex feid (some (.inl j)) []), st.nextId, st.calls)
    | some (.errText e, _, st) =>
      some (.ok (resolveExecution st.ex feid (some (.inr e)) []), st.nextId, st.calls)

/-- The `mapFns.reduce` fold of the outer `run` (lines 775–797). `recRun`
is the recursive invocation used for AI-function entries (a fresh engine
running the nested definition against the same execution id); plain
transforms re-resolve the active Execution with the transformed value. The
accumulator `p` is the Execution produced by the previous step. -/
def applyMapFns
    (recRun : ProcedureBuilderDef → FunctionArgs → Option String → Nat →
      Option (RunOut × Nat × Nat))
    (ctx : Ctx) (feid : String) (runtimeArgs : FunctionArgs) :
    List (MapTransform ⊕ ProcedureBuilderDef) → EngineSt → Execution →
      Option (RunOut × EngineSt)
  | [], st, p => some (.ok p, st)
  | .inl f :: rest, st, p =>
    let appliedMap := f p.finalResponse runtimeArgs
    let ex' := resolveExecution st.ex feid (some (.inl appliedMap)) []
    applyMapFns recRun ctx feid runtimeArgs rest { st with ex := ex' } ex'
  | .inr dd :: rest, st, p =>
    let args' := ctx.spreadArgs p.finalResponse
    let c := createTrace st feid (.executingFunction dd args')
    let st := c.2
    match recRun dd args' (some st.ex.id) st.nextId with
    | none => none
    | some (.thrown e, n, k) =>
      some (.thrown e, { st with nextId := n, calls := st.calls + k })
    | some (.ok pex, n, k) =>
      applyMapFns recRun ctx feid runtimeArgs rest
        { st with nextId := n, calls := st.calls + k } pex

/-- The outer `run` of the returned builder object (lines 772–803): the
inner `run`, then the `mapFns` fold. Nested AI-function invocations
consume one unit of fuel. -/
def runOuter (ctx : Ctx) (d : ProcedureBuilderDef) (arg : FunctionArgs)
    (executionId : Option String) (n0 : Nat) : Nat → Option (RunOut × Nat × Nat)
  | 0 => none
  | fuel + 1 =>
    match run ctx d (fuel + 1) arg executionId n0 with
    | none => none
    | some (.thrown e, n, k) => some (.thrown e, n, k)
    | some (.ok ex, n, k) =>
      let feid := freshId (match executionId with | some _ => n0 | none => n0 + 1)
      match applyMapFns (fun dd a eid n' => runOuter ctx dd a eid n' fuel) ctx feid arg
          ((ProcedureBuilderDef.mapFns d).getD []) { ex := ex, nextId := n, calls := k } ex with
      | none => none
      | some (.thrown e, st) => some (.thrown e, st.nextId, st.calls)
      | some (.ok pex, st) => some (.ok pex, st.nextId, st.calls)

/-- `runDataset` (lines 756–762): throw when no dataset key is declared,
otherwise invoke `this.run` once per dataset entry. (`Promise.all`
concurrency is modeled as an independent sequential invocation per entry;
nanoid uniqueness across entries is immaterial to any stated property.) -/
def runDataset (ctx : Ctx) (d : ProcedureBuilderDef) (fuel : Nat) :
    Except String (List (Option (RunOut × Nat × Nat))) :=
  match ProcedureBuilderDef.dataset d with
  | none => .error "No dataset"
  | some dataset => .ok (dataset.map fun a => runOuter ctx d a none 0 fuel)

/-! ## Helper lemmas: engine state and traces -/

/-- The trace of the active sub-record (first match on the active
`functionExecutionId`). -/
def activeTrace (st : EngineSt) (feid : String) : List Action :=
  match st.ex.functionsExecuted.find? (fun e => e.functionExecutionId == feid) with
  | some e => e.trace
  | none => []

/-- Whether a sub-record for the active `functionExecutionId` exists. -/
def hasActive (st : EngineSt) (feid : String) : Bool :=
  (st.ex.functionsExecuted.find? (fun e => e.functionExecutionId == feid)).isSome

theorem find?_map_of_pred {α : Type} (f : α → α) (p : α → Bool)
    (hf : ∀ a, p (f a) = p a) (l : List α) :
    (l.map f).find? p = (l.find? p).map f := by
  induction l with
  | nil => rfl
  | cons a t ih =>
    by_cases h : p a = true
    · rw [List.map_cons, List.find?_cons_of_pos _ (by rw [hf]; exact h),
        List.find?_cons_of_pos _ h, Option.map_some']
    · rw [List.map_cons, List.find?_cons_of_neg _ (by rw [hf]; exact h),
        List.find?_cons_of_neg _ h, ih]

theorem appendAction_find? (ex : Execution) (feid : String) (a : Action) :
    (ex.appendAction feid a).functionsExecuted.find?
        (fun e => e.functionExecutionId == feid) =
      (ex.functionsExecuted.find? (fun e => e.functionExecutionId == feid)).map
        (fun e => if e.functionExecutionId == feid then { e with trace := e.trace ++ [a] } else e) := by
  unfold Execution.appendAction
  exact find?_map_of_pred _ _ (fun e => by by_cases h : e.functionExecutionId == feid <;> simp [h]) _

theorem patchAction_find? (ex : Execution) (feid id : String) (r : ActionResponse) :
    (ex.patchAction feid id r).functionsExecuted.find?
        (fun e => e.functionExecutionId == feid) =
      (ex.functionsExecuted.find? (fun e => e.functionExecutionId == feid)).map
        (fun e => if e.functionExecutionId == feid then
          { e with trace := e.trace.map fun t =>
              if t.id == id then { t with data := t.data.setResponse r } else t }
        else e) := by
  unfold Execution.patchAction
  exact find?_map_of_pred _ _ (fun e => by by_cases h : e.functionExecutionId == feid <;> simp [h]) _

theorem activeTrace_createTrace (st : EngineSt) (feid : String) (a : ActionData)
    (h : hasActive st feid = true) :
    activeTrace (createTrace st feid a).2 feid =
      activeTrace st feid ++ [⟨freshId st.nextId, a⟩] := by
  unfold activeTrace createTrace
  simp only [appendAction_find?]
  unfold hasActive at h
  rcases hfind : st.ex.functionsExecuted.find? (fun e => e.functionExecutionId == feid) with _ | e
  · rw [hfind] at h; simp at h
  · have hp := List.find?_some hfind
    simp only [hfind, Option.map_some', hp, if_true]

theorem hasActive_createTrace (st : EngineSt) (feid : String) (a : ActionData) :
    hasActive (createTrace st feid a).2 feid = hasActive st feid := by
  unfold hasActive createTrace
  simp only [appendAction_find?, Option.isSome_map']

theorem activeTrace_updateTraceSt (st : EngineSt) (feid id : String) (r : ActionResponse) :
    activeTrace (updateTraceSt st feid id r) feid =
      (activeTrace st feid).map
        (fun t => if t.id == id then { t with data := t.data.setResponse r } else t) := by
  unfold activeTrace updateTraceSt
  simp only [patchAction_find?]
  rcases hfind : st.ex.functionsExecuted.find? (fun e => e.functionExecutionId == feid) with _ | e
  · simp only [hfind, Option.map_none', List.map_nil]
  · have hp := List.find?_some hfind
    simp only [hfind, Option.map_some', hp, if_true]

theorem hasActive_updateTraceSt (st : EngineSt) (feid id : String) (r : ActionResponse) :
    hasActive (updateTraceSt st feid id r) feid = hasActive st feid := by
  unfold hasActive updateTraceSt
  simp only [patchAction_find?, Option.isSome_map']

theorem activeTrace_setCalls (st : EngineSt) (k : Nat) (feid : String) :
    activeTrace { st with calls := k } feid = activeTrace st feid := rfl

theorem hasActive_setCalls (st : EngineSt) (k : Nat) (feid : String) :
    hasActive { st with calls := k } feid = hasActive st feid := rfl

theorem createTrace_calls (st : EngineSt) (feid : String) (a : ActionData) :
    (createTrace st feid a).2.calls = st.calls := rfl

theorem createTrace_fst (st : EngineSt) (feid : String) (a : ActionData) :
    (createTrace st feid a).1 = freshId st.nextId := rfl

theorem updateTraceSt_calls (st : EngineSt) (feid id : String) (r : ActionResponse) :
    (updateTraceSt st feid id r).calls = st.calls := rfl

/-! ## C5: the no-function-call corrective loop is unbounded -/

/-- C5: When the chat provider's reply contains no function call, the
Retriever marks the pending `calling-open-ai` Action as `error` and
recurses with `retry + 1`, appending the corrective human message
re-stating the `print` schema; this branch recurses for EVERY retry value
and is not bounded by the retry cap: under a provider that never returns a
function call, `callZodOutput` yields no answer for any amount of fuel
(there is no `timeout-error` termination on this branch). -/
theorem c5_no_function_call_unbounded (ctx : Ctx) (d : ProcedureBuilderDef)
    (schemaText feid : String) (zodSchema : Schema)
    (hp : ∀ msgs : List Msg, (ctx.provider msgs).functionCall = none) :
    (∀ fuel st msgs retries,
      callZodOutput ctx d schemaText feid zodSchema fuel st msgs retries = none)
    ∧ (∀ fuel st msgs retries,
      callZodOutput ctx d schemaText feid zodSchema (fuel + 1) st msgs retries =
        callZodOutput ctx d schemaText feid zodSchema fuel
          (updateTraceSt
            { (createTrace st feid (.callingOpenAi msgs .loading)).2 with
              calls := (createTrace st feid (.callingOpenAi msgs .loading)).2.calls + 1 }
            feid (createTrace st feid (.callingOpenAi msgs .loading)).1
            (.error ("No function call found, Got text instead: " ++ (ctx.provider msgs).text)))
          ((msgs ++ [Msg.ai (ctx.provider msgs).text none]) ++ [noFunctionCallMsg schemaText])
          (retries + 1)) := by
  have hstep : ∀ fuel st msgs retries,
      callZodOutput ctx d schemaText feid zodSchema (fuel + 1) st msgs retries =
        callZodOutput ctx d schemaText feid zodSchema fuel
          (updateTraceSt
            { (createTrace st feid (.callingOpenAi msgs .loading)).2 with
              calls := (createTrace st feid (.callingOpenAi msgs .loading)).2.calls + 1 }
            feid (createTrace st feid (.callingOpenAi msgs .loading)).1
            (.error ("No function call found, Got text instead: " ++ (ctx.provider msgs).text)))
          ((msgs ++ [Msg.ai (ctx.provider msgs).text none]) ++ [noFunctionCallMsg schemaText])
          (retries + 1) := by
    intro fuel st msgs retries
    rw [callZodOutput]
    simp only [hp msgs]
  refine ⟨?_, hstep⟩
  intro fuel
  induction fuel with
  | zero => intro st msgs retries; rfl
  | succ f ih =>
    intro st msgs retries
    rw [hstep]
    exact ih _ _ _

/-! ## Bounded retry path of `callZodOutput` (C1, C9) -/

/-- A provider reply whose function call fails one of the two counted
validation steps: the envelope parse (`arguments` is not valid JSON), or a
resolvable function whose parameter schema rejects the parsed arguments.
The resolved function is recorded through its `find?` fact over the
catalog (user functions plus the synthesized `print`). -/
def stepFails (ctx : Ctx) (d : ProcedureBuilderDef) (zodSchema : Schema)
    (fc : FunctionCallRaw) (e : String) : Prop :=
  ctx.jsonParse fc.arguments = .error e ∨
  (∃ j fn, ctx.jsonParse fc.arguments = .ok j ∧
    (((ProcedureBuilderDef.functions d).getD []) ++ [printFn zodSchema]).find?
      (fun f => f.name == fc.name) = some fn ∧
    fn.parameters j = .error e)

theorem find?_print (d : ProcedureBuilderDef) (zodSchema : Schema)
    (hfn : ∀ f ∈ (ProcedureBuilderDef.functions d).getD [], f.name ≠ "print") :
    (((ProcedureBuilderDef.functions d).getD []) ++ [printFn zodSchema]).find?
      (fun f => f.name == "print") = some (printFn zodSchema) := by
  rw [List.find?_append]
  have h1 : ((ProcedureBuilderDef.functions d).getD []).find? (fun f => f.name == "print")
      = none := by
    rw [List.find?_eq_none]
    intro f hf
    simp [hfn f hf]
  rw [h1]
  simp [printFn]

/-- Under a provider whose every reply fails a counted validation step,
`callZodOutput` starting at any retry count `r ≤ 4` answers within
`5 - r` provider calls: it makes exactly `5 - r` calls, returns the last
validation error message as the degenerate result, and leaves the final
Action of the active trace as a `calling-open-ai` record at
`timeout-error`. -/
theorem callZodOutput_fail_bounded (ctx : Ctx) (d : ProcedureBuilderDef)
    (schemaText feid : String) (zodSchema : Schema)
    (hp : ∀ msgs : List Msg, ∃ fc e, (ctx.provider msgs).functionCall = some fc ∧
      stepFails ctx d zodSchema fc e) :
    ∀ fuel retries st msgs, retries ≤ 4 → 5 - retries ≤ fuel → hasActive st feid = true →
      ∃ e msgs' st' idv ms,
        callZodOutput ctx d schemaText feid zodSchema fuel st msgs retries =
          some (.errText e, msgs', st') ∧
        (∃ fc ms0, (ctx.provider ms0).functionCall = some fc ∧
          stepFails ctx d zodSchema fc e) ∧
        st'.calls = st.calls + (5 - retries) ∧
        (activeTrace st' feid).getLast? =
          some (Action.mk idv (.callingOpenAi ms .timeoutError)) := by
  intro fuel
  induction fuel with
  | zero => intro r st msgs hr hf hact; omega
  | succ f ih =>
    intro r st msgs hr hf hact
    obtain ⟨fc, e, hpr, hsf⟩ := hp msgs
    by_cases hgt : r > 3
    · -- terminal step: r = 4
      have hr4 : r = 4 := by omega
      subst hr4
      rcases hsf with hparse | ⟨j, fn, hok, hfind, hperr⟩
      · rw [callZodOutput]
        simp only [hpr, hparse, gt_iff_lt, if_pos (by norm_num : (3:Nat) < 4)]
        refine ⟨e, _, _, freshId st.nextId, msgs, rfl, ⟨fc, msgs, hpr, Or.inl hparse⟩, ?_, ?_⟩
        · simp [updateTraceSt_calls, createTrace_calls]
        · rw [activeTrace_updateTraceSt, activeTrace_updateTraceSt, activeTrace_setCalls,
            activeTrace_createTrace _ _ _ hact]
          rw [List.map_append, List.map_append]
          simp [ActionData.setResponse, createTrace_fst]
      · rw [callZodOutput]
        simp only [hpr, hok, hfind]
        simp only [hperr, gt_iff_lt, if_pos (by norm_num : (3:Nat) < 4)]
        refine ⟨e, _, _, freshId st.nextId, msgs, rfl,
          ⟨fc, msgs, hpr, Or.inr ⟨j, fn, hok, hfind, hperr⟩⟩, ?_, ?_⟩
        · simp [updateTraceSt_calls, createTrace_calls]
        · rw [activeTrace_updateTraceSt, activeTrace_updateTraceSt, activeTrace_setCalls,
            activeTrace_createTrace _ _ _ hact]
          rw [List.map_append, List.map_append]
          simp [ActionData.setResponse, createTrace_fst]
    · -- recursive step: r ≤ 3
      rcases hsf with hparse | ⟨j, fn, hok, hfind, hperr⟩
      · rw [callZodOutput]
        simp only [hpr, hparse, gt_iff_lt, if_neg (by omega : ¬ (3:Nat) < r)]
        have hact2 : hasActive (updateTraceSt
            { (createTrace st feid (.callingOpenAi msgs .loading)).2 with
              calls := (createTrace st feid (.callingOpenAi msgs .loading)).2.calls + 1 }
            feid (freshId st.nextId) (.zodError (.raw fc.name fc.arguments) e)) feid = true := by
          rw [hasActive_updateTraceSt, hasActive_setCalls, hasActive_createTrace]
          exact hact
        obtain ⟨e', msgs', st', idv, ms, heq, hsf', hcalls, htr⟩ :=
          ih (r + 1) _ _ (by omega) (by omega) hact2
        refine ⟨e', msgs', st', idv, ms, heq, hsf', ?_, htr⟩
        simp only [updateTraceSt_calls] at hcalls
        simp only [hcalls, createTrace_calls]
        omega
      · rw [callZodOutput]
        simp only [hpr, hok, hfind]
        simp only [hperr, gt_iff_lt, if_neg (by omega : ¬ (3:Nat) < r)]
        have hact2 : hasActive (updateTraceSt
            { (createTrace st feid (.callingOpenAi msgs .loading)).2 with
              calls := (createTrace st feid (.callingOpenAi msgs .loading)).2.calls + 1 }
            feid (freshId st.nextId) (.zodError (.parsed j) e)) feid = true := by
          rw [hasActive_updateTraceSt, hasActive_setCalls, hasActive_createTrace]
          exact hact
        obtain ⟨e', msgs', st', idv, ms, heq, hsf', hcalls, htr⟩ :=
          ih (r + 1) _ _ (by omega) (by omega) hact2
        refine ⟨e', msgs', st', idv, ms, heq, hsf', ?_, htr⟩
        simp only [updateTraceSt_calls] at hcalls
        simp only [hcalls, createTrace_calls]
        omega

/-- Complement of the bound: with a provider whose every reply fails a
counted validation step, fewer than `5 - r` units of fuel (provider calls)
do not suffice to produce an answer. -/
theorem callZodOutput_fail_needs_fuel (ctx : Ctx) (d : ProcedureBuilderDef)
    (schemaText feid : String) (zodSchema : Schema)
    (hp : ∀ msgs : List Msg, ∃ fc e, (ctx.provider msgs).functionCall = some fc ∧
      stepFails ctx d zodSchema fc e) :
    ∀ fuel retries st msgs, fuel < 5 - retries →
      callZodOutput ctx d schemaText feid zodSchema fuel st msgs retries = none := by
  intro fuel
  induction fuel with
  | zero => intro r st msgs hlt; rfl
  | succ f ih =>
    intro r st msgs hlt
    obtain ⟨fc, e, hpr, hsf⟩ := hp msgs
    rcases hsf with hparse | ⟨j, fn, hok, hfind, hperr⟩
    · rw [callZodOutput]
      simp only [hpr, hparse, gt_iff_lt, if_neg (by omega : ¬ (3:Nat) < r)]
      exact ih _ _ _ (by omega)
    · rw [callZodOutput]
      simp only [hpr, hok, hfind]
      simp only [hperr, gt_iff_lt, if_neg (by omega : ¬ (3:Nat) < r)]
      exact ih _ _ _ (by omega)

/-! ## Shared concrete material for witnesses and counterexamples -/

/-- A concrete Execution with one sub-record, active id `"f0"`. -/
def exW : Execution :=
  { id := "e0", createdAt := 0,
    functionsExecuted := [({ functionExecutionId := "f0", inputs := {}, trace := [],
                             finalResponse := none,
                             functionDef := ProcedureBuilderDef.empty } : FunctionExecuted)],
    finalResponse := none, verified := none }

def stW : EngineSt := { ex := exW, nextId := 0, calls := 0 }

/-- A neutral context; witnesses override the fields they exercise. -/
def baseCtx : Ctx :=
  { provider := fun _ => { text := "", functionCall := none },
    jsonParse := fun _ => .ok .null,
    interpolate := fun _ _ => "",
    showRecord := fun _ => "",
    splitDoc := fun _ _ _ _ => "",
    stringifyJson := fun _ => "",
    printSchemaText := "S",
    spreadArgs := fun _ => {} }

/-- A schema that rejects everything. -/
def schInvalid : Schema := fun _ => .error "invalid"

/-! ## C1 -/

/-- C1: For every conversation and target schema, if every chat-provider
reply is a `print` function call whose JSON-parsed arguments fail schema
validation, the schema-validation-failure path terminates within exactly 5
attempts: fuel 5 produces the answer after exactly 5 provider calls while
any fuel ≤ 4 produces none (retry counter values 0,1,2,3 proceed, a value
above 3 terminates); the final `calling-open-ai` Action of the active
trace ends in a `timeout-error` response; and the returned result is a
schema-validation error message (`errText`), not a schema-valid value. -/
theorem c1_schema_failure_bounded (ctx : Ctx) (d : ProcedureBuilderDef)
    (schemaText feid : String) (zodSchema : Schema) (st : EngineSt) (msgs : List Msg)
    (hfn : ∀ f ∈ (ProcedureBuilderDef.functions d).getD [], f.name ≠ "print")
    (hact : hasActive st feid = true)
    (hp : ∀ ms : List Msg, ∃ t a j e, ctx.provider ms =
        { text := t, functionCall := some { name := "print", arguments := a } } ∧
      ctx.jsonParse a = .ok j ∧ zodSchema j = .error e) :
    (∃ e msgs' st' idv ms,
      callZodOutput ctx d schemaText feid zodSchema 5 st msgs 0 =
        some (.errText e, msgs', st') ∧
      (∃ j, zodSchema j = .error e) ∧
      st'.calls = st.calls + 5 ∧
      (activeTrace st' feid).getLast? =
        some (Action.mk idv (.callingOpenAi ms .timeoutError)))
    ∧ (∀ fuel, fuel ≤ 4 →
        callZodOutput ctx d schemaText feid zodSchema fuel st msgs 0 = none) := by
  have hp' : ∀ ms : List Msg, ∃ fc e, (ctx.provider ms).functionCall = some fc ∧
      stepFails ctx d zodSchema fc e := by
    intro ms
    obtain ⟨t, a, j, e, hprov, hok, herr⟩ := hp ms
    exact ⟨{ name := "print", arguments := a }, e, by rw [hprov],
      Or.inr ⟨j, printFn zodSchema, hok, find?_print d zodSchema hfn, herr⟩⟩
  constructor
  · obtain ⟨e, msgs', st', idv, ms, heq, hsf, hcalls, htr⟩ :=
      callZodOutput_fail_bounded ctx d schemaText feid zodSchema hp' 5 0 st msgs
        (by omega) (by omega) hact
    refine ⟨e, msgs', st', idv, ms, heq, ?_, by simpa using hcalls, htr⟩
    obtain ⟨fc, ms0, hfc, hsf0⟩ := hsf
    obtain ⟨t, a, j0, e0, hprov, hok0, herr0⟩ := hp ms0
    rw [hprov] at hfc
    simp only [Option.some.injEq] at hfc
    rcases hsf0 with hparse | ⟨j, fn, hok, hfind, hperr⟩
    · rw [← hfc, hok0] at hparse
      cases hparse
    · rw [← hfc] at hok hfind
      rw [hok0] at hok
      simp only [Except.ok.injEq] at hok
      rw [find?_print d zodSchema hfn] at hfind
      simp only [Option.some.injEq] at hfind
      exact ⟨j, by rw [← hfind] at hperr; exact hperr⟩
  · intro fuel hf
    exact callZodOutput_fail_needs_fuel ctx d schemaText feid zodSchema hp' fuel 0 st msgs
      (by omega)

/-- C1 witness: a concrete provider that always calls `print` with
arguments rejected by a concrete schema. -/
def c1Ctx : Ctx :=
  { baseCtx with
    provider := fun _ =>
      { text := "", functionCall := some { name := "print", arguments := "oops" } },
    jsonParse := fun _ => .ok .null }

theorem c1_schema_failure_bounded_witness :
    (∃ e msgs' st' idv ms,
      callZodOutput c1Ctx ProcedureBuilderDef.empty "S" "f0" schInvalid 5 stW [] 0 =
        some (.errText e, msgs', st') ∧
      (∃ j, schInvalid j = .error e) ∧
      st'.calls = stW.calls + 5 ∧
      (activeTrace st' "f0").getLast? =
        some (Action.mk idv (.callingOpenAi ms .timeoutError)))
    ∧ callZodOutput c1Ctx ProcedureBuilderDef.empty "S" "f0" schInvalid 4 stW [] 0
        = none :=
  ⟨(c1_schema_failure_bounded c1Ctx ProcedureBuilderDef.empty "S" "f0" schInvalid stW []
      (fun f hf => absurd hf (List.not_mem_nil f))
      (by rfl)
      (fun ms => ⟨"", "oops", .null, "invalid", rfl, rfl, rfl⟩)).1,
   (c1_schema_failure_bounded c1Ctx ProcedureBuilderDef.empty "S" "f0" schInvalid stW []
      (fun f hf => absurd hf (List.not_mem_nil f))
      (by rfl)
      (fun ms => ⟨"", "oops", .null, "invalid", rfl, rfl, rfl⟩)).2 4 (by norm_num)⟩

/-! ## C9 -/

/-- C9: When the provider returns a function-call directive whose envelope
fails to parse (`arguments` is not valid JSON), the Retriever marks the
`calling-open-ai` Action `zod-error` with the raw function call and the
parse-error message, and this branch consumes the bounded retry budget
exactly like a schema-validation failure: for counter values r ≤ 3 the
step recurses with `retry + 1` and a corrective message (third conjunct,
the single-step shape), while from counter 0 the whole loop answers in
exactly 5 provider calls with the final Action at `timeout-error` and the
parse-error message as the degenerate result (first conjunct), fuel ≤ 4
yielding no answer (second conjunct). -/
theorem c9_envelope_parse_failure (ctx : Ctx) (d : ProcedureBuilderDef)
    (schemaText feid : String) (zodSchema : Schema) (st : EngineSt) (msgs : List Msg)
    (hact : hasActive st feid = true)
    (hp : ∀ ms : List Msg, ∃ t n a e, ctx.provider ms =
        { text := t, functionCall := some { name := n, arguments := a } } ∧
      ctx.jsonParse a = .error e) :
    (∃ e msgs' st' idv ms,
      callZodOutput ctx d schemaText feid zodSchema 5 st msgs 0 =
        some (.errText e, msgs', st') ∧
      (∃ a, ctx.jsonParse a = .error e) ∧
      st'.calls = st.calls + 5 ∧
      (activeTrace st' feid).getLast? =
        some (Action.mk idv (.callingOpenAi ms .timeoutError)))
    ∧ (∀ fuel, fuel ≤ 4 →
        callZodOutput ctx d schemaText feid zodSchema fuel st msgs 0 = none)
    ∧ (∀ fuel st0 msgs0 r, r ≤ 3 →
        ∃ t n a e, ctx.provider msgs0 =
            { text := t, functionCall := some { name := n, arguments := a } } ∧
          ctx.jsonParse a = .error e ∧
          callZodOutput ctx d schemaText feid zodSchema (fuel + 1) st0 msgs0 r =
            callZodOutput ctx d schemaText feid zodSchema fuel
              (updateTraceSt
                { (createTrace st0 feid (.callingOpenAi msgs0 .loading)).2 with
                  calls := (createTrace st0 feid (.callingOpenAi msgs0 .loading)).2.calls + 1 }
                feid (freshId st0.nextId) (.zodError (.raw n a) e))
              ((msgs0 ++ [Msg.ai t (some { name := n, arguments := a })]) ++
                [createValidationErrorFunctionMessage e]) (r + 1)) := by
  have hp' : ∀ ms : List Msg, ∃ fc e, (ctx.provider ms).functionCall = some fc ∧
      stepFails ctx d zodSchema fc e := by
    intro ms
    obtain ⟨t, n, a, e, hprov, herr⟩ := hp ms
    exact ⟨{ name := n, arguments := a }, e, by rw [hprov], Or.inl herr⟩
  refine ⟨?_, ?_, ?_⟩
  · obtain ⟨e, msgs', st', idv, ms, heq, hsf, hcalls, htr⟩ :=
      callZodOutput_fail_bounded ctx d schemaText feid zodSchema hp' 5 0 st msgs
        (by omega) (by omega) hact
    refine ⟨e, msgs', st', idv, ms, heq, ?_, by simpa using hcalls, htr⟩
    obtain ⟨fc, ms0, hfc, hsf0⟩ := hsf
    rcases hsf0 with hparse | ⟨j, fn, hok, hfind, hperr⟩
    · exact ⟨fc.arguments, hparse⟩
    · obtain ⟨t, n, a, e0, hprov, herr0⟩ := hp ms0
      rw [hprov] at hfc
      simp only [Option.some.injEq] at hfc
      rw [← hfc, herr0] at hok
      cases hok
  · intro fuel hf
    exact callZodOutput_fail_needs_fuel ctx d schemaText feid zodSchema hp' fuel 0 st msgs
      (by omega)
  · intro fuel st0 msgs0 r hr
    obtain ⟨t, n, a, e, hprov, herr⟩ := hp msgs0
    refine ⟨t, n, a, e, hprov, herr, ?_⟩
    rw [callZodOutput, hprov]
    simp only [herr, gt_iff_lt, if_neg (by omega : ¬ (3:Nat) < r), createTrace_fst]

/-- C9 witness: a provider always naming some function with arguments that
never parse as JSON. -/
def c9Ctx : Ctx :=
  { baseCtx with
    provider := fun _ =>
      { text := "", functionCall := some { name := "go", arguments := "][" } },
    jsonParse := fun _ => .error "Unexpected token" }

theorem c9_envelope_parse_failure_witness :
    (∃ e msgs' st' idv ms,
      callZodOutput c9Ctx ProcedureBuilderDef.empty "S" "f0" schInvalid 5 stW [] 0 =
        some (.errText e, msgs', st') ∧
      (∃ a, c9Ctx.jsonParse a = .error e) ∧
      st'.calls = stW.calls + 5 ∧
      (activeTrace st' "f0").getLast? =
        some (Action.mk idv (.callingOpenAi ms .timeoutError)))
    ∧ callZodOutput c9Ctx ProcedureBuilderDef.empty "S" "f0" schInvalid 4 stW [] 0 = none
    ∧ (∃ t n a e, c9Ctx.provider [] =
          { text := t, functionCall := some { name := n, arguments := a } } ∧
        c9Ctx.jsonParse a = .error e ∧
        callZodOutput c9Ctx ProcedureBuilderDef.empty "S" "f0" schInvalid 1 stW [] 0 =
          callZodOutput c9Ctx ProcedureBuilderDef.empty "S" "f0" schInvalid 0
            (updateTraceSt
              { (createTrace stW "f0" (.callingOpenAi [] .loading)).2 with
                calls := (createTrace stW "f0" (.callingOpenAi [] .loading)).2.calls + 1 }
              "f0" (freshId stW.nextId) (.zodError (.raw n a) e))
            (([] ++ [Msg.ai t (some { name := n, arguments := a })]) ++
              [createValidationErrorFunctionMessage e]) 1) :=
  ⟨(c9_envelope_parse_failure c9Ctx ProcedureBuilderDef.empty "S" "f0" schInvalid stW []
      (by rfl) (fun ms => ⟨"", "go", "][", "Unexpected token", rfl, rfl⟩)).1,
   (c9_envelope_parse_failure c9Ctx ProcedureBuilderDef.empty "S" "f0" schInvalid stW []
      (by rfl) (fun ms => ⟨"", "go", "][", "Unexpected token", rfl, rfl⟩)).2.1 4 (by norm_num),
   (c9_envelope_parse_failure c9Ctx ProcedureBuilderDef.empty "S" "f0" schInvalid stW []
      (by rfl) (fun ms => ⟨"", "go", "][", "Unexpected token", rfl, rfl⟩)).2.2 0 stW [] 0
      (by norm_num)⟩

/-! ## C5 witness -/

theorem c5_no_function_call_unbounded_witness :
    callZodOutput baseCtx ProcedureBuilderDef.empty "S" "f0" schInvalid 3 stW [] 0 = none :=
  (c5_no_function_call_unbounded baseCtx ProcedureBuilderDef.empty "S" "f0" schInvalid
    (fun _ => rfl)).1 3 stW [] 0

/-! ## C6 -/

/-- C6 (amended): a function call resolving to a user sub-function with
valid arguments makes the Retriever recurse with the SAME retry counter
(first conjunct). However — contrary to the original claim — a
sub-function call whose arguments fail its parameter schema follows the
same bounded path as a `print` schema failure: it recurses with
`retry + 1` for counter values ≤ 3 and terminates in `timeout-error` with
the validation message for values above 3 (second conjunct); the counter
is shared, not reserved to `print`-targeted failures. -/
theorem c6_subfunction_retry (ctx : Ctx) (d : ProcedureBuilderDef)
    (schemaText feid : String) (zodSchema : Schema) :
    (∀ fuel st msgs r t fc j fn v,
      ctx.provider msgs = { text := t, functionCall := some fc } →
      ctx.jsonParse fc.arguments = .ok j →
      (((ProcedureBuilderDef.functions d).getD []) ++ [printFn zodSchema]).find?
        (fun f => f.name == fc.name) = some fn →
      fn.name ≠ "print" →
      fn.parameters j = .ok v →
      ∃ st' msgs',
        callZodOutput ctx d schemaText feid zodSchema (fuel + 1) st msgs r =
          callZodOutput ctx d schemaText feid zodSchema fuel st' msgs' r)
    ∧ (∀ fuel st msgs r t fc j fn e,
      ctx.provider msgs = { text := t, functionCall := some fc } →
      ctx.jsonParse fc.arguments = .ok j →
      (((ProcedureBuilderDef.functions d).getD []) ++ [printFn zodSchema]).find?
        (fun f => f.name == fc.name) = some fn →
      fn.parameters j = .error e →
      (r ≤ 3 → ∃ st' msgs',
        callZodOutput ctx d schemaText feid zodSchema (fuel + 1) st msgs r =
          callZodOutput ctx d schemaText feid zodSchema fuel st' msgs' (r + 1))
      ∧ (r > 3 → ∃ msgs' st',
        callZodOutput ctx d schemaText feid zodSchema (fuel + 1) st msgs r =
          some (.errText e, msgs', st'))) := by
  constructor
  · intro fuel st msgs r t fc j fn v hprov hok hfind hname hval
    rw [callZodOutput, hprov]
    have hb : (fn.name == "print") = false := by
      simpa using hname
    simp only [hok, hfind, hval, hb, Bool.false_eq_true, if_false]
    exact ⟨_, _, rfl⟩
  · intro fuel st msgs r t fc j fn e hprov hok hfind hperr
    constructor
    · intro hr
      rw [callZodOutput, hprov]
      simp only [hok, hfind, hperr, gt_iff_lt, if_neg (by omega : ¬ (3:Nat) < r)]
      exact ⟨_, _, rfl⟩
    · intro hr
      rw [callZodOutput, hprov]
      simp only [hok, hfind, hperr, gt_iff_lt, if_pos (by omega : (3:Nat) < r)]
      exact ⟨_, _, rfl⟩

/-- A user sub-function whose parameter schema accepts everything. -/
def c6FnOk : FunctionDef :=
  { name := "f", description := "", parameters := fun j => .ok j, implements := none }

/-- A user sub-function whose parameter schema rejects everything. -/
def c6FnBad : FunctionDef :=
  { name := "f", description := "", parameters := fun _ => .error "em", implements := none }

def c6DefOk : ProcedureBuilderDef :=
  .mk none none none none none none none (some [c6FnOk]) none none none none none none

def c6DefBad : ProcedureBuilderDef :=
  .mk none none none none none none none (some [c6FnBad]) none none none none none none

/-- A provider that always calls the user sub-function `f`. -/
def c6Ctx : Ctx :=
  { baseCtx with
    provider := fun _ =>
      { text := "", functionCall := some { name := "f", arguments := "1" } },
    jsonParse := fun _ => .ok .null }

theorem c6_subfunction_retry_witness :
    (∃ st' msgs',
      callZodOutput c6Ctx c6DefOk "S" "f0" schInvalid 3 stW [] 2 =
        callZodOutput c6Ctx c6DefOk "S" "f0" schInvalid 2 st' msgs' 2)
    ∧ (∃ st' msgs',
      callZodOutput c6Ctx c6DefBad "S" "f0" schInvalid 3 stW [] 1 =
        callZodOutput c6Ctx c6DefBad "S" "f0" schInvalid 2 st' msgs' 2) :=
  ⟨(c6_subfunction_retry c6Ctx c6DefOk "S" "f0" schInvalid).1 2 stW [] 2 ""
      { name := "f", arguments := "1" } .null c6FnOk .null rfl rfl rfl (by decide) rfl,
   ((c6_subfunction_retry c6Ctx c6DefBad "S" "f0" schInvalid).2 2 stW [] 1 ""
      { name := "f", arguments := "1" } .null c6FnBad "em" rfl rfl rfl rfl).1 (by omega)⟩

/-- C6 counterexample to the original claim: with a provider that always
calls user sub-function `f` with schema-rejected arguments, the Retriever
reaches the bounded `timeout-error` termination after exactly 5 provider
calls (and cannot answer within 4) — so sub-function schema failures DO
increment the bounded counter used to reach `timeout-error`; it is not
reserved to `print`-targeted failures. -/
theorem c6_counterexample :
    (callZodOutput c6Ctx c6DefBad "S" "f0" schInvalid 5 stW [] 0).map
        (fun x => match x.1 with | .errText e => some e | _ => none) = some (some "em")
    ∧ (callZodOutput c6Ctx c6DefBad "S" "f0" schInvalid 5 stW [] 0).map
        (fun x => x.2.2.calls) = some 5
    ∧ (callZodOutput c6Ctx c6DefBad "S" "f0" schInvalid 5 stW [] 0).map
        (fun x => (activeTrace x.2.2 "f0").getLast?.map fun a =>
          match a.data with
          | .callingOpenAi _ .timeoutError => true
          | _ => false) = some (some true)
    ∧ callZodOutput c6Ctx c6DefBad "S" "f0" schInvalid 4 stW [] 0 = none := by
  refine ⟨rfl, rfl, rfl, rfl⟩

/-! ## C2: content-addressed identity -/

theorem getKey_setKey (d : Js) (k v : String) : getKey (setKey d k v) k = some v := by
  induction d with
  | nil => simp [setKey, getKey]
  | cons kv t ih =>
    by_cases h : (kv.1 == k) = true
    · have hany : ((kv :: t).any fun kv => kv.1 == k) = true := by
        simp [List.any_cons, h]
      unfold setKey
      rw [if_pos hany]
      unfold getKey
      rw [List.map_cons, if_pos h, List.find?_cons_of_pos _ (by simp)]
      rfl
    · have hF : (kv.1 == k) = false := by
        rwa [Bool.not_eq_true] at h
      unfold setKey at ih ⊢
      rw [List.any_cons, hF, Bool.false_or]
      by_cases h2 : (t.any fun kv => kv.1 == k) = true
      · rw [if_pos h2]
        rw [if_pos h2] at ih
        unfold getKey at ih ⊢
        rw [List.map_cons, if_neg h, List.find?_cons_of_neg _ (by simp [hF])]
        exact ih
      · rw [if_neg h2]
        rw [if_neg h2] at ih
        unfold getKey at ih ⊢
        rw [List.cons_append, List.find?_cons_of_neg _ (by simp [hF])]
        exact ih

/-- C2 (amended): `create` assigns as id the decimal string of the cyrb53
hash of `JSON.stringify` of the Definition AS IT STANDS — including any
previously assigned id key. Consequently Definitions with identical
serializations receive identical ids (first conjunct), and re-hashing the
PRE-finalization serialization re-derives the id assigned at `create()`
time (second conjunct). (Re-hashing the FINALIZED Definition does not: see
the counterexample.) -/
theorem c2_content_hash :
    (∀ d1 d2 : Js, stringifyObj d1 = stringifyObj d2 →
      getKey (create d1) "id" = getKey (create d2) "id")
    ∧ (∀ d : Js, getKey (create d) "id" =
        some ("\"" ++ toString (cyrb53 (stringifyObj d)) ++ "\"")) := by
  constructor
  · intro d1 d2 h
    unfold create
    rw [getKey_setKey, getKey_setKey, h]
  · intro d
    unfold create
    rw [getKey_setKey]

theorem c2_content_hash_witness :
    getKey (create [("name", "\"x\"")]) "id" = getKey (create [("name", "\"x\"")]) "id"
    ∧ getKey (create [("name", "\"x\"")]) "id" =
        some ("\"" ++ toString (cyrb53 (stringifyObj [("name", "\"x\"")])) ++ "\"") :=
  ⟨c2_content_hash.1 [("name", "\"x\"")] [("name", "\"x\"")] rfl,
   c2_content_hash.2 [("name", "\"x\"")]⟩

/-- C2 counterexample to the original claim: (i) two Definitions identical
except for their previously assigned id receive DIFFERENT ids — the hash
is computed over the serialization including the prior id, not excluding
it; (ii) re-serializing and re-hashing the FINALIZED Definition (which now
contains the assigned id key) does not reproduce the id computed at
`create()` time. -/
theorem c2_counterexample :
    getKey (create [("id", "\"test\"")]) "id" ≠ getKey (create [("id", "\"zzzz\"")]) "id"
    ∧ cyrb53 (stringifyObj (create [("name", "\"x\"")])) ≠
        cyrb53 (stringifyObj [("name", "\"x\"")]) := by
  exact ⟨by decide, by decide⟩

/-! ## C4: the `output` builder method ignores new values once set -/

/-- A schema that accepts everything unchanged. -/
def idSchema : Schema := fun j => .ok j

/-- A Definition whose `output` and `tsOutputString` keys are already set. -/
def c4Def : ProcedureBuilderDef :=
  .mk none none none (some idSchema) (some "TS_A")
    none none none none none none none none none

/-- C4 (code bug in `output`, lines 696–706): calling `.output` on a
Definition whose `output`/`tsOutputString` keys are already present is a
no-op — the spread `{ output: t, tsOutputString, ...def }` places the old
definition LAST, so the newly supplied schema does not take effect,
contradicting the shallow-merge contract every other builder method
follows. -/
theorem c4_output_noop :
    Builder.output c4Def schInvalid "TS_B" = c4Def
    ∧ ProcedureBuilderDef.output (Builder.output c4Def schInvalid "TS_B") ≠
        some schInvalid := by
  constructor
  · rfl
  · intro h
    have h2 : idSchema = schInvalid :=
      Option.some.inj (h : some idSchema = some schInvalid)
    have h4 := congrFun h2 Json.null
    simp [idSchema, schInvalid] at h4

/-! ## C10: `updateTrace` with an unmatched Action id -/

/-- C10: for an active Execution, `updateTrace` with an id matching no
Action in the active sub-record's trace throws no error, leaves every
Action of every sub-record unchanged, and still notifies the observer with
the (unchanged) Execution. -/
theorem c10_updateTrace_noop (ex : Execution) (feid id : String) (r : ActionResponse)
    (h : ∀ e ∈ ex.functionsExecuted, e.functionExecutionId = feid →
      ∀ a ∈ e.trace, a.id ≠ id) :
    updateTrace (some ex) feid id r = .ok (ex, [ex]) := by
  have hex : ex.patchAction feid id r = ex := by
    unfold Execution.patchAction
    have hmap : (ex.functionsExecuted.map fun e =>
        if e.functionExecutionId == feid then
          { e with trace := e.trace.map fun t =>
              if t.id == id then { t with data := t.data.setResponse r } else t }
        else e) = ex.functionsExecuted := by
      conv_rhs => rw [← List.map_id ex.functionsExecuted]
      apply List.map_congr_left
      intro e he
      by_cases hf : (e.functionExecutionId == feid) = true
      · have htr : (e.trace.map fun t =>
            if t.id == id then { t with data := t.data.setResponse r } else t) = e.trace := by
          conv_rhs => rw [← List.map_id e.trace]
          apply List.map_congr_left
          intro a ha
          have hb : (a.id == id) = false := by
            simpa using h e he (by simpa using hf) a ha
          simp [hb]
        rw [if_pos hf, htr]
        rfl
      · rw [if_neg hf]
        rfl
    rw [hmap]
  show Except.ok (ex.patchAction feid id r, [ex.patchAction feid id r]) = .ok (ex, [ex])
  rw [hex]

/-- Concrete Execution for the C10 witness: one sub-record, one Action
with id `"a0"`. -/
def c10Ex : Execution :=
  { id := "e1", createdAt := 0,
    functionsExecuted := [({ functionExecutionId := "f0", inputs := {},
                             trace := [{ id := "a0", data := .log .loading }],
                             finalResponse := none,
                             functionDef := ProcedureBuilderDef.empty } : FunctionExecuted)],
    finalResponse := none, verified := none }

theorem c10_updateTrace_noop_witness :
    updateTrace (some c10Ex) "f0" "zz" .timeoutError = .ok (c10Ex, [c10Ex]) :=
  c10_updateTrace_noop c10Ex "f0" "zz" .timeoutError (by
    intro e he hfe a ha
    simp only [c10Ex, List.mem_singleton] at he
    subst he
    simp only [List.mem_singleton] at ha
    subst ha
    decide)

/-! ## C3: idempotence of the Log Registry merge -/

theorem find?_key_self {α : Type} (key : α → String) (l : List α)
    (hnd : (l.map key).Nodup) (a : α) (ha : a ∈ l) :
    l.find? (fun x => key x == key a) = some a := by
  induction l with
  | nil => cases ha
  | cons h t ih =>
    rw [List.map_cons, List.nodup_cons] at hnd
    obtain ⟨hh, ht⟩ := hnd
    rcases List.mem_cons.mp ha with rfl | hat
    · exact List.find?_cons_of_pos _ (by simp)
    · have hk : (key h == key a) = false := by
        rw [beq_eq_false_iff_ne]
        intro hkey
        exact hh (hkey ▸ List.mem_map_of_mem key hat)
      rw [List.find?_cons_of_neg _ (by simp [hk])]
      exact ih ht hat

/-- `mergeOrUpdate` is idempotent on reapplying the same incoming list,
provided the incoming keys are pairwise distinct. -/
theorem mergeOrUpdate_idem {α : Type} (key : α → String) (A B : List α)
    (h : (B.map key).Nodup) :
    mergeOrUpdate (mergeOrUpdate A B key) B key = mergeOrUpdate A B key := by
  unfold mergeOrUpdate
  have hff : ∀ a : α,
      ((B.find? fun n => key n == key ((B.find? fun n => key n == key a).getD a)).getD
        ((B.find? fun n => key n == key a).getD a)) =
      (B.find? fun n => key n == key a).getD a := by
    intro a
    rcases hb : B.find? (fun n => key n == key a) with _ | b
    · simp [hb]
    · have hkb : key b = key a := by
        have := List.find?_some hb
        simpa using this
      simp [hb, hkb]
  have hBexmem : ∀ b ∈ B.filter (fun n => !(A.any fun o => key o == key n)), b ∈ B :=
    fun b hb => (List.mem_filter.mp hb).1
  have hmapPart : ((A.map fun o => (B.find? fun n => key n == key o).getD o) ++
        B.filter (fun n => !(A.any fun o => key o == key n))).map
          (fun o => (B.find? fun n => key n == key o).getD o) =
      (A.map fun o => (B.find? fun n => key n == key o).getD o) ++
        B.filter (fun n => !(A.any fun o => key o == key n)) := by
    rw [List.map_append, List.map_map]
    congr 1
    · exact List.map_congr_left fun a _ => hff a
    · conv_rhs => rw [← List.map_id (B.filter fun n => !(A.any fun o => key o == key n))]
      apply List.map_congr_left
      intro b hb
      have hbB := hBexmem b hb
      rw [find?_key_self key B h b hbB]
      rfl
  have hfilterPart : (B.filter fun n =>
      !(((A.map fun o => (B.find? fun n => key n == key o).getD o) ++
          B.filter (fun n => !(A.any fun o => key o == key n))).any
        fun o => key o == key n)) = [] := by
    rw [List.filter_eq_nil_iff]
    intro n hnB
    simp only [Bool.not_eq_true', Bool.not_eq_false]
    by_cases hA : (A.any fun o => key o == key n) = true
    · obtain ⟨a, haA, hka⟩ := List.any_eq_true.mp hA
      have hwit : ∃ x ∈ B, (key x == key a) = true := ⟨n, hnB, by
        rw [beq_iff_eq] at hka ⊢
        exact hka.symm⟩
      obtain ⟨b0, hb0⟩ := Option.isSome_iff_exists.mp (List.find?_isSome.mpr hwit)
      have hkb0 : key b0 = key a := by
        have := List.find?_some hb0
        simpa using this
      refine List.any_eq_true.mpr ⟨(B.find? fun x => key x == key a).getD a, ?_, ?_⟩
      · exact List.mem_append_left _ (List.mem_map_of_mem _ haA)
      · rw [hb0]
        simp only [Option.getD_some]
        rw [beq_iff_eq, hkb0]
        rw [beq_iff_eq] at hka
        exact hka
    · have hnBex : n ∈ B.filter (fun n => !(A.any fun o => key o == key n)) :=
        List.mem_filter.mpr ⟨hnB, by simp [hA]⟩
      exact List.any_eq_true.mpr ⟨n, List.mem_append_right _ hnBex, by simp⟩
  rw [hmapPart, hfilterPart, List.append_nil]

/-- Merging an Execution with itself is the identity (under distinct
sub-record keys). -/
theorem mergeExecutions_self (B : Execution)
    (h : (B.functionsExecuted.map fun e => e.functionExecutionId).Nodup) :
    mergeExecutions B B = B := by
  have h1 : mergeOrUpdate B.functionsExecuted B.functionsExecuted
      (fun o => o.functionExecutionId) = B.functionsExecuted := by
    unfold mergeOrUpdate
    have hmap : (B.functionsExecuted.map fun o =>
        (B.functionsExecuted.find? fun n =>
          n.functionExecutionId == o.functionExecutionId).getD o) =
        B.functionsExecuted := by
      conv_rhs => rw [← List.map_id B.functionsExecuted]
      apply List.map_congr_left
      intro e he
      rw [find?_key_self (fun e => e.functionExecutionId) B.functionsExecuted h e he]
      rfl
    have hfil : (B.functionsExecuted.filter fun n =>
        !(B.functionsExecuted.any fun o =>
          o.functionExecutionId == n.functionExecutionId)) = [] := by
      rw [List.filter_eq_nil_iff]
      intro n hn
      simp only [Bool.not_eq_true', Bool.not_eq_false]
      exact List.any_eq_true.mpr ⟨n, hn, by simp⟩
    rw [hmap, hfil, List.append_nil]
  have h2 : (B.finalResponse <|> B.finalResponse) = B.finalResponse := by
    cases B.finalResponse <;> rfl
  have h3 : (B.verified <|> B.verified) = B.verified := by
    cases B.verified <;> rfl
  unfold mergeExecutions
  rw [h1, h2, h3]

/-- The merge of `logHandler` is idempotent on reapplication (under
distinct incoming sub-record keys). -/
theorem mergeExecutions_idem (A B : Execution)
    (h : (B.functionsExecuted.map fun e => e.functionExecutionId).Nodup) :
    mergeExecutions (mergeExecutions A B) B = mergeExecutions A B := by
  have h2 : (B.finalResponse <|> (B.finalResponse <|> A.finalResponse)) =
      (B.finalResponse <|> A.finalResponse) := by
    cases B.finalResponse <;> rfl
  have h3 : (B.verified <|> (B.verified <|> A.verified)) = (B.verified <|> A.verified) := by
    cases B.verified <;> rfl
  unfold mergeExecutions
  rw [mergeOrUpdate_idem _ _ _ h]
  simp only [h2, h3]

theorem logHandler_replay (logs : List Execution) (B : Execution)
    (h : (B.functionsExecuted.map fun e => e.functionExecutionId).Nodup) :
    (logHandler (logHandler logs B).1 B).1 = (logHandler logs B).1 := by
  unfold logHandler
  rcases hfind : logs.find? (fun e => e.id == B.id) with _ | A0
  · have hnone := List.find?_eq_none.mp hfind
    have hfind2 : ((logs ++ [B]).find? fun e => e.id == B.id) = some B := by
      rw [List.find?_append, hfind]
      simp
    simp only [hfind, hfind2]
    rw [mergeExecutions_self B h, List.map_append]
    have hlogs : (logs.map fun e => if e.id == B.id then B else e) = logs := by
      conv_rhs => rw [← List.map_id logs]
      apply List.map_congr_left
      intro e he
      have : ¬ ((e.id == B.id) = true) := hnone e he
      rw [if_neg this]
      rfl
    rw [hlogs]
    simp
  · have hA0 : (A0.id == B.id) = true := by simpa using List.find?_some hfind
    have hMid : (mergeExecutions A0 B).id = B.id := rfl
    have hpres : ∀ e : Execution,
        (((fun e => if e.id == (mergeExecutions A0 B).id then mergeExecutions A0 B else e) e).id
          == B.id) = (e.id == B.id) := by
      intro e
      dsimp only
      by_cases he : (e.id == (mergeExecutions A0 B).id) = true
      · rw [if_pos he]
        rw [hMid] at he
        rw [he]
        simp [hMid]
      · rw [if_neg he]
    have hfind2 : ((logs.map fun e =>
        if e.id == (mergeExecutions A0 B).id then mergeExecutions A0 B else e).find?
          fun e => e.id == B.id) = some (mergeExecutions A0 B) := by
      rw [find?_map_of_pred _ _ hpres, hfind]
      simp only [Option.map_some']
      rw [if_pos (by rw [hMid]; exact hA0)]
    simp only [hfind, hfind2]
    rw [mergeExecutions_idem A0 B h]
    rw [List.map_map]
    apply List.map_congr_left
    intro e _
    simp only [Function.comp]
    by_cases he : (e.id == (mergeExecutions A0 B).id) = true
    · rw [if_pos he, if_pos (by simp)]
    · rw [if_neg he, if_neg he]

/-- C3 (amended): provided the incoming Execution's `functionsExecuted`
keys are pairwise distinct — true of engine-produced Executions, which
draw a fresh `functionExecutionId` per sub-record — the Log Registry merge
satisfies `merge(merge(A,B), B) = merge(A,B)`, and replaying the same
incoming Execution a second time through `logHandler` leaves the stored
log list unchanged. (Without distinct keys this fails: see the
counterexample.) -/
theorem c3_merge_idempotent (A B : Execution)
    (h : (B.functionsExecuted.map fun e => e.functionExecutionId).Nodup) :
    mergeExecutions (mergeExecutions A B) B = mergeExecutions A B
    ∧ ∀ logs : List Execution,
        (logHandler (logHandler logs B).1 B).1 = (logHandler logs B).1 :=
  ⟨mergeExecutions_idem A B h, fun logs => logHandler_replay logs B h⟩

def c3Sub (feid resp : String) : FunctionExecuted :=
  { functionExecutionId := feid, inputs := {}, trace := [],
    finalResponse := some (.inr resp), functionDef := ProcedureBuilderDef.empty }

def c3ExA : Execution :=
  { id := "e", createdAt := 0, functionsExecuted := [c3Sub "a" "old"],
    finalResponse := none, verified := none }

def c3ExB : Execution :=
  { id := "e", createdAt := 0, functionsExecuted := [c3Sub "a" "1", c3Sub "b" "2"],
    finalResponse := some (.inr "done"), verified := none }

theorem c3_merge_idempotent_witness :
    mergeExecutions (mergeExecutions c3ExA c3ExB) c3ExB = mergeExecutions c3ExA c3ExB
    ∧ (logHandler (logHandler [c3ExA] c3ExB).1 c3ExB).1 = (logHandler [c3ExA] c3ExB).1 :=
  ⟨(c3_merge_idempotent c3ExA c3ExB (by decide)).1,
   (c3_merge_idempotent c3ExA c3ExB (by decide)).2 [c3ExA]⟩

def c3DupB : Execution :=
  { id := "e", createdAt := 0, functionsExecuted := [c3Sub "k" "1", c3Sub "k" "2"],
    finalResponse := none, verified := none }

def c3EmptyA : Execution :=
  { id := "e", createdAt := 0, functionsExecuted := [],
    finalResponse := none, verified := none }

/-- C3 counterexample to the original (unconditional) claim: for an
incoming Execution containing two different sub-records with the same
`functionExecutionId`, reapplying the merge is NOT a no-op — the second
application collapses both onto the first match. -/
theorem c3_counterexample :
    mergeExecutions (mergeExecutions c3EmptyA c3DupB) c3DupB ≠
      mergeExecutions c3EmptyA c3DupB := by
  intro hcontra
  have hproj : ((mergeExecutions (mergeExecutions c3EmptyA c3DupB) c3DupB).functionsExecuted.map
      fun e => match e.finalResponse with | some (.inr s) => s | _ => "") =
      ((mergeExecutions c3EmptyA c3DupB).functionsExecuted.map
      fun e => match e.finalResponse with | some (.inr s) => s | _ => "") := by
    rw [hcontra]
  exact absurd hproj (by decide)

/-! ## C7: short-circuit when neither output schema nor instructions -/

theorem documentsTemplate_calls (ctx : Ctx) (feid exId userPrompt : String) :
    ∀ (docs : List (DocumentDesc × Option String)) (acc : List String) (st : EngineSt),
      (documentsTemplate ctx feid exId userPrompt docs acc st).2.calls = st.calls := by
  intro docs
  induction docs with
  | nil => intro acc st; rfl
  | cons hd rest ih =>
    intro acc st
    obtain ⟨dsc, inp⟩ := hd
    rw [documentsTemplate]
    rw [ih]
    rfl

/-- C7: invoking the engine's `run` (lines 570–667, the invocation that
feeds the `mapFns` fold) on a Definition declaring neither an output
schema nor an instruction template resolves the Execution with an
undefined final response and issues zero chat-provider calls — the
Structured Output Retriever is never entered, for any fuel, arguments and
execution id. -/
theorem c7_short_circuit (ctx : Ctx) (d : ProcedureBuilderDef) (fuel : Nat)
    (arg : FunctionArgs) (executionId : Option String) (n0 : Nat)
    (hO : ProcedureBuilderDef.output d = none)
    (hI : ProcedureBuilderDef.instructions d = none) :
    ∃ ex n, run ctx d fuel arg executionId n0 = some (.ok ex, n, 0)
      ∧ ex.finalResponse = none := by
  unfold run
  rcases hq : arg.query with _ | qa <;> rcases hqd : ProcedureBuilderDef.query d with _ | qd <;>
    simp only [hq, hqd, hO, hI, Option.isNone_none, Bool.and_self, if_true] <;>
    rw [documentsTemplate_calls] <;>
    exact ⟨_, _, rfl, rfl⟩

theorem c7_short_circuit_witness :
    ∃ ex n, run baseCtx ProcedureBuilderDef.empty 0 {} none 0 = some (.ok ex, n, 0)
      ∧ ex.finalResponse = none :=
  c7_short_circuit baseCtx ProcedureBuilderDef.empty 0 {} none 0 rfl rfl

/-! ## C8: `runDataset` -/

/-- C8: `runDataset` fails fast with the thrown "No dataset" error exactly
when no dataset key is declared; otherwise it invokes the builder's `run`
once per dataset entry, producing a result list with exactly one entry per
dataset entry. -/
theorem c8_runDataset (ctx : Ctx) (d : ProcedureBuilderDef) (fuel : Nat) :
    (ProcedureBuilderDef.dataset d = none → runDataset ctx d fuel = .error "No dataset")
    ∧ (∀ ds, ProcedureBuilderDef.dataset d = some ds →
        runDataset ctx d fuel = .ok (ds.map fun a => runOuter ctx d a none 0 fuel)
        ∧ (ds.map fun a => runOuter ctx d a none 0 fuel).length = ds.length) := by
  constructor
  · intro h
    unfold runDataset
    rw [h]
  · intro ds h
    unfold runDataset
    rw [h]
    exact ⟨rfl, by simp⟩

def c8Def : ProcedureBuilderDef :=
  .mk none none none none none none none none none none (some [{}, {}]) none none none

theorem c8_runDataset_witness :
    (runDataset baseCtx c8Def 1 =
        .ok ([({} : FunctionArgs), {}].map fun a => runOuter baseCtx c8Def a none 0 1)
      ∧ ([({} : FunctionArgs), {}].map fun a => runOuter baseCtx c8Def a none 0 1).length = 2)
    ∧ runDataset baseCtx ProcedureBuilderDef.empty 1 = .error "No dataset" :=
  ⟨(c8_runDataset baseCtx c8Def 1).2 [{}, {}] rfl,
   (c8_runDataset baseCtx ProcedureBuilderDef.empty 1).1 rfl⟩

end LlmFn
